import Mathlib

/-!
Shallow embedding of parts of the Soong build system (android_build_soong):
the glob staleness checker and bootstrap epoch cleanup from
ui/build/soong.go, executor selection from ui/build/soong.go and
ui/build/ninja.go, the ninja environment filtering from ui/build/ninja.go,
the apex_key and all_apex_certs modules from apex/key.go, the platform
compat config singleton from java/platform_compat_config.go, and native API
level clamping from cc/api_level.go.
-/

namespace Soong

/-- Result of os.Stat on a path as used by checkGlobs: the file exists with
the given modification time in microseconds, does not exist (fs.ErrNotExist
or syscall.ENOTDIR), or stat fails with some other error. -/
inductive StatResult where
  | info (modTimeMicros : Int)
  | notExist
  | statError
deriving DecidableEq, Repr

/-- A snapshot of the file system as seen through os.Stat. -/
def FileSystem : Type := String → StatResult

/-- One cached glob read from the "<target>.globs" file
(a pathtools.GlobResult record). -/
structure GlobResult where
  pattern : String
  excludes : List String
  matchList : List String
  deps : List String
deriving DecidableEq, Repr

/-- The external glob evaluator (pathtools.Glob from Blueprint): given a
pattern and exclude patterns it returns the list of matches, or none when the
glob run fails with an error. -/
def GlobRunner : Type := String → List String → Option (List String)

/-- The dependency scan of one cached glob in checkGlobs
(ui/build/soong.go): walks the deps in order, stopping at the first
dependency that is missing or newer than the globs_time timestamp; a stat
error other than non-existence is reported to the error channel and the scan
continues with the next dep.  Returns (hasNewDep, reportedError). -/
def depScan (fs : FileSystem) (globsTimeMicros : Int) : List String → Bool × Bool
  | [] => (false, false)
  | dep :: rest =>
    match fs dep with
    | .notExist => (true, false)
    | .statError =>
      let r := depScan fs globsTimeMicros rest
      (r.1, true)
    | .info m =>
      if m > globsTimeMicros then (true, false)
      else depScan fs globsTimeMicros rest

/-- Processing of a single cached glob by a checkGlobs worker: if no dep is
missing or newer than the globs_time timestamp the glob is not rerun;
otherwise the glob is rerun and its matches compared against the cached
matches (slices.Equal).  Returns (foundChangedGlob, reportedError). -/
def checkOneGlob (runGlob : GlobRunner) (fs : FileSystem) (globsTimeMicros : Int)
    (g : GlobResult) : Bool × Bool :=
  let s := depScan fs globsTimeMicros g.deps
  if !s.1 then (false, s.2)
  else
    match runGlob g.pattern g.excludes with
    | none => (false, true)
    | some result => (decide (result ≠ g.matchList), s.2)

/-- Sequential linearization of the checkGlobs worker loop over all cached
globs: once hasChangedGlobs is set, the remaining globs are consumed without
any further checks.  The accumulator is (hasChangedGlobs, reportedError). -/
def processGlobs (runGlob : GlobRunner) (fs : FileSystem) (globsTimeMicros : Int) :
    Bool × Bool → List GlobResult → Bool × Bool
  | acc, [] => acc
  | acc, g :: rest =>
    if acc.1 then processGlobs runGlob fs globsTimeMicros acc rest
    else
      let r := checkOneGlob runGlob fs globsTimeMicros g
      processGlobs runGlob fs globsTimeMicros (r.1, acc.2 || r.2) rest

/-- Outcome of checkGlobs (ui/build/soong.go), recording which files it
wrote for the final output target. -/
inductive CheckGlobsOutcome where
  /-- The "<target>.globs" cache file did not exist: checkGlobs created an
  empty "<target>.glob_results" file and returned nil. -/
  | createdEmptyGlobResults
  /-- Some read failed (globs_time missing or unparsable, a dep stat error,
  or a glob run error): checkGlobs returned an error and wrote nothing. -/
  | readError
  /-- All reads succeeded: "<target>.globs_time" was rewritten with the glob
  check start time, and "<target>.glob_results" was rewritten (triggering a
  soong_build rerun) exactly when rewroteGlobResults holds. -/
  | ok (rewroteGlobResults : Bool) (newGlobsTimeMicros : Int)
deriving DecidableEq, Repr

/-- checkGlobs from ui/build/soong.go.  globsFile is the parsed content of
"<target>.globs" (none when the file does not exist); globsTimeFile is the
parsed integer content of "<target>.globs_time" (none when reading or
parsing it fails); now is the glob check start time in microseconds. -/
def checkGlobs (runGlob : GlobRunner) (fs : FileSystem) (now : Int)
    (globsFile : Option (List GlobResult)) (globsTimeFile : Option Int) :
    CheckGlobsOutcome :=
  match globsFile with
  | none => .createdEmptyGlobResults
  | some cachedGlobs =>
    match globsTimeFile with
    | none => .readError
    | some globsTimeMicros =>
      let r := processGlobs runGlob fs globsTimeMicros (false, false) cachedGlobs
      if r.2 then .readError
      else .ok r.1 now

/-- A dependency list is stale when some dep is missing or strictly newer
than the globs_time timestamp (the error-free reading of the dep scan). -/
def globDepStale (fs : FileSystem) (globsTimeMicros : Int) (deps : List String) : Bool :=
  deps.any fun d =>
    match fs d with
    | .notExist => true
    | .statError => false
    | .info m => decide (m > globsTimeMicros)

/-- The error-free change predicate for one cached glob: some dep is missing
or newer, and rerunning the glob gives a match list different from the
cached one. -/
def globChangedB (runGlob : GlobRunner) (fs : FileSystem) (globsTimeMicros : Int)
    (g : GlobResult) : Bool :=
  globDepStale fs globsTimeMicros g.deps &&
    decide (runGlob g.pattern g.excludes ≠ some g.matchList)

/-- Configuration slice used by bootstrapEpochCleanup (ui/build/soong.go):
the soong out dir, the generated soong ninja file, and the ninja shard
files returned by blueprint.GetNinjaShardFiles (external to this
repository, kept abstract). -/
structure EpochConfig where
  soongOutDir : String
  soongNinjaFile : String
  ninjaShardFiles : List String
deriving DecidableEq, Repr

/-- The bootstrapEpoch constant from ui/build/soong.go. -/
def bootstrapEpoch : Nat := 1

/-- The epoch marker path .soong.bootstrap.epoch.<bootstrapEpoch> inside the
soong out dir (filepath.Join modelled as slash concatenation). -/
def epochPath (c : EpochConfig) : String :=
  c.soongOutDir ++ "/.soong.bootstrap.epoch." ++ toString bootstrapEpoch

/-- The files bootstrapEpochCleanup deletes when the tree is out of date for
the current epoch: the generated soong ninja file, its shard files, and the
.globs, .globs_time and .glob_results companions. -/
def epochCleanupDeletes (c : EpochConfig) : List String :=
  c.soongNinjaFile :: c.ninjaShardFiles ++
    [c.soongNinjaFile ++ ".globs", c.soongNinjaFile ++ ".globs_time",
     c.soongNinjaFile ++ ".glob_results"]

/-- File existence view of the file system used by bootstrapEpochCleanup. -/
def FsExists : Type := String → Bool

/-- bootstrapEpochCleanup from ui/build/soong.go: if the epoch marker file
exists nothing is changed; otherwise the bootstrap files are deleted and
then the marker file is written. -/
def bootstrapEpochCleanup (c : EpochConfig) (fs : FsExists) : FsExists :=
  if fs (epochPath c) then fs
  else fun p =>
    if p = epochPath c then true
    else if p ∈ epochCleanupDeletes c then false
    else fs p

/-- proptools.String: the value of an optional string property, "" for nil. -/
def optString : Option String → String
  | none => ""
  | some s => s

/-- The Go filepath.Base function: the last element of the path after trailing slashes
are removed; "." for the empty path and "/" for a path of slashes only. -/
def goFilepathBase (path : String) : String :=
  if path = "" then "."
  else
    let rev := path.toList.reverse.dropWhile fun c => c = '/'
    if rev = [] then "/"
    else String.mk ((rev.takeWhile fun c => c ≠ '/').reverse)

/-- The Go filepath.Ext function: the suffix beginning at the final dot in the final
slash-separated element of the path, empty when there is no dot. -/
def goFilepathExt (path : String) : String :=
  let revComp := path.toList.reverse.takeWhile fun c => c ≠ '/'
  match revComp.findIdx? (fun c => c = '.') with
  | none => ""
  | some i => String.mk ((revComp.take (i + 1)).reverse)

/-- The key name of a key file as computed in
apexKey.GenerateAndroidBuildActions (apex/key.go):
Base() with the Ext() suffix stripped. -/
def apexKeyName (path : String) : String :=
  let base := goFilepathBase path
  let ext := goFilepathExt path
  String.mk (base.toList.take (base.toList.length - ext.toList.length))

/-- The module-context operations apexKey key resolution uses, kept
abstract: android.SrcIsModule (the module name of a ":module" reference, ""
otherwise), android.PathForModuleSrc, ctx.Config().ApexKeyDir(ctx).Join,
and android.ExistentPathForSource(...).Valid(); these live in the android
package outside this source tree. -/
structure KeyResolutionCtx where
  srcIsModule : String → String
  pathForModuleSrc : String → String
  apexKeyDirJoin : String → String
  existentPathValid : String → Bool

/-- apexKeyProperties from apex/key.go. -/
structure ApexKeyProperties where
  public_key : Option String
  private_key : Option String
  installable : Option Bool
deriving DecidableEq, Repr

/-- ApexKeyInfo from apex/key.go, with paths as strings. -/
structure ApexKeyInfo where
  publicKeyFile : String
  privateKeyFile : String
deriving DecidableEq, Repr

/-- Resolution of one key property in apexKey.GenerateAndroidBuildActions:
a ":module" reference resolves through PathForModuleSrc; otherwise the
default cert dir is tried, with the local module dir as fallback when no
source file exists there. -/
def resolveKeyFile (rc : KeyResolutionCtx) (prop : Option String) : String :=
  if rc.srcIsModule (optString prop) ≠ "" then rc.pathForModuleSrc (optString prop)
  else
    let keyFile := rc.apexKeyDirJoin (optString prop)
    if ¬ rc.existentPathValid keyFile then rc.pathForModuleSrc (optString prop)
    else keyFile

/-- apexKey.GenerateAndroidBuildActions from apex/key.go: some info when
the ApexKeyInfo provider is published, none when a module error is reported
and the function returns without publishing. -/
def apexKeyGenerateAndroidBuildActions (rc : KeyResolutionCtx)
    (props : ApexKeyProperties) : Option ApexKeyInfo :=
  let publicKeyFile := resolveKeyFile rc props.public_key
  let privateKeyFile := resolveKeyFile rc props.private_key
  let pubKeyName := apexKeyName publicKeyFile
  let privKeyName := apexKeyName privateKeyFile
  if props.public_key ≠ none ∧ props.private_key ≠ none ∧ pubKeyName ≠ privKeyName then
    none
  else
    some ⟨publicKeyFile, privateKeyFile⟩

/-- The view platformCompatConfigSingleton has of one module in the graph:
whether it is enabled (CommonModuleInfoProvider.Enabled), the optional
PlatformCompatConfigMetadataInfo provider (metadata path and
IncludeInMergedXml flag), and whether the module is the preferred variant
(IsModulePreferredProxy). -/
structure CompatModuleView where
  enabled : Bool
  compatConfig : Option (String × Bool)
  preferred : Bool
deriving DecidableEq, Repr

/-- The metadata collection loop of
platformCompatConfigSingleton.GenerateBuildActions
(java/platform_compat_config.go), over the modules in visit order. -/
def collectCompatConfigMetadata (mods : List CompatModuleView) : List String :=
  mods.filterMap fun m =>
    if !m.enabled then none
    else
      match m.compatConfig with
      | none => none
      | some (md, includeInMergedXml) =>
        if !m.preferred then none
        else if !includeInMergedXml then none
        else some md

/-- android.PathForOutput(ctx, "compat_config", "merged_compat_config.xml")
relative to the output dir (java/platform_compat_config.go). -/
def platformCompatConfigPath : String := "compat_config/merged_compat_config.xml"

/-- A build rule emitted through RuleBuilder: tool, inputs, output. -/
structure CompatConfigRule where
  tool : String
  inputs : List String
  output : String
deriving DecidableEq, Repr

/-- Outcome of platformCompatConfigSingleton.GenerateBuildActions: the
merge rule when one is emitted, and the (goal, file) dist pairs. -/
structure CompatSingletonOutcome where
  rule : Option CompatConfigRule
  dist : List (String × String)
deriving DecidableEq, Repr

/-- platformCompatConfigSingleton.GenerateBuildActions from
java/platform_compat_config.go. -/
def platformCompatConfigSingletonGenerateBuildActions
    (mods : List CompatModuleView) : CompatSingletonOutcome :=
  let md := collectCompatConfigMetadata mods
  if md = [] then ⟨none, []⟩
  else
    ⟨some ⟨"process-compat-config", md, platformCompatConfigPath⟩,
     [("droidcore", platformCompatConfigPath)]⟩

/-- The spec reading of the compat-config aggregation: a module contributes
its metadata exactly when it is enabled, preferred and marked
IncludeInMergedXml. -/
def compatIncludedMetadata (m : CompatModuleView) : Option String :=
  match m.compatConfig with
  | some (md, includeInMergedXml) =>
    if m.enabled && m.preferred && includeInMergedXml then some md else none
  | none => none

/-- android.ArchType values as distinguished by MinApiForArch
(cc/api_level.go); the value other stands for any ArchType outside the five
ones (for example android.Common), the default case of the switch. -/
inductive ArchType where
  | arm
  | arm64
  | riscv64
  | x86
  | x86_64
  | other
deriving DecidableEq, Repr

/-- The module-context data NativeApiLevelFromUser (cc/api_level.go)
depends on.  The android.ApiLevel type and its helpers live in the android
package outside this source tree, so they are kept abstract: an api-level
type A, the strict comparison ApiLevel.LessThan, the distinguished levels
ctx.Config().MinSupportedSdkVersion(), android.FirstLp64Version,
android.FutureApiLevel and android.NoneApiLevel, the parser
android.ApiLevelFromUser, and the arch of the current module context. -/
structure ApiLevelCtx (A : Type) where
  lessThan : A → A → Bool
  minSupportedSdkVersion : A
  firstLp64Version : A
  futureApiLevel : A
  noneApiLevel : A
  apiLevelFromUser : String → Except String A
  arch : ArchType

/-- MinApiForArch from cc/api_level.go; none models the panic of the
default case of the switch. -/
def MinApiForArch {A : Type} (c : ApiLevelCtx A) (arch : ArchType) : Option A :=
  match arch with
  | .arm | .x86 => some c.minSupportedSdkVersion
  | .arm64 | .x86_64 => some c.firstLp64Version
  | .riscv64 => some c.futureApiLevel
  | .other => none

/-- nativeClampedApiLevel from cc/api_level.go: clamps the level up to
MinApiForArch; none models a panic propagated from MinApiForArch. -/
def nativeClampedApiLevel {A : Type} (c : ApiLevelCtx A) (apiLevel : A) : Option A :=
  (MinApiForArch c c.arch).map fun mn =>
    if c.lessThan apiLevel mn then mn else apiLevel

/-- NativeApiLevelFromUser from cc/api_level.go: none models a panic coming
from MinApiForArch; otherwise the Go (ApiLevel, error) pair is returned,
with the error as an optional message. -/
def NativeApiLevelFromUser {A : Type} (c : ApiLevelCtx A) (raw : String) :
    Option (A × Option String) :=
  if raw = "minimum" then (MinApiForArch c c.arch).map fun mn => (mn, none)
  else
    match c.apiLevelFromUser raw with
    | .error e => some (c.noneApiLevel, some e)
    | .ok value => (nativeClampedApiLevel c value).map fun v => (v, none)

/-- The view all_apex_certs (apex/key.go) has of one direct dependency:
whether it is an apexBundle, and if so the pem certificate returned by
getCertificateAndPrivateKey and the avb public key file of the module. -/
structure ApexDepView where
  isApexBundle : Bool
  pem : String
  publicKeyFile : String
deriving DecidableEq, Repr

/-- Context bits used by allApexCerts.GenerateAndroidBuildActions. -/
structure AllApexCertsCtx where
  existentPathValid : String → Bool
  allowMissingDependencies : Bool

/-- Whether a visited dependency contributes its certificates: apexBundle
deps whose pem source is missing are skipped when AllowMissingDependencies
is set, and otherwise reported through ModuleErrorf while still being
appended. -/
def apexDepKept (c : AllApexCertsCtx) (m : ApexDepView) : Bool :=
  m.isApexBundle && (c.existentPathValid m.pem || !c.allowMissingDependencies)

/-- Modelled from the spec: android.SortedUniquePaths (android package, not
in this source tree), applied "For hermiticity" in apex/key.go — the
path list the claim calls "sorted and deduplicated": duplicates removed, then
sorted by the path string. -/
def sortedUniquePaths (l : List String) : List String :=
  l.dedup.insertionSort (fun a b => a ≤ b)

/-- The i-th DER output path
(android.PathForModuleOut(ctx, fmt.Sprintf("x509.%v.der", index))). -/
def derPath (i : Nat) : String := "x509." ++ toString i ++ ".der"

/-- Outputs of allApexCerts.GenerateAndroidBuildActions: the ".pem" output
file list, the pem-to-der rules as (input, output) pairs in emission order,
the ".der" output file list, the ".avbpubkey" output file list, and
whether a module error was reported. -/
structure AllApexCertsOutputs where
  certificatesPem : List String
  pemToDerRules : List (String × String)
  certificatesDer : List String
  avbpubkeys : List String
  errored : Bool
deriving DecidableEq, Repr

/-- allApexCerts.GenerateAndroidBuildActions from apex/key.go, as a
function of the direct dependencies in visit order. -/
def allApexCertsGenerateAndroidBuildActions (c : AllApexCertsCtx)
    (deps : List ApexDepView) : AllApexCertsOutputs :=
  let certificatesPem := sortedUniquePaths
    (deps.filterMap fun m => if apexDepKept c m then some m.pem else none)
  let avbpubkeys := sortedUniquePaths
    (deps.filterMap fun m => if apexDepKept c m then some m.publicKeyFile else none)
  let rules := certificatesPem.enum.map fun p => (p.2, derPath p.1)
  { certificatesPem := certificatesPem
    pemToDerRules := rules
    certificatesDer := rules.map Prod.snd
    avbpubkeys := avbpubkeys
    errored := deps.any fun m =>
      m.isApexBundle && !c.existentPathValid m.pem && !c.allowMissingDependencies }

/-- Environments as partial maps from variable names to values. -/
def Env : Type := String → Option String

/-- The ninja command selector from soong_ui (Config.ninjaCommand); the
values named in ui/build/ninja.go and ui/build/soong.go. -/
inductive NinjaCommand where
  | NINJA_NINJA
  | NINJA_NINJAGO
  | NINJA_N2
  | NINJA_SISO
deriving DecidableEq, Repr

/-- Environment.Allow: restrict the environment to the given names. -/
def envAllow (names : List String) (e : Env) : Env := fun k =>
  if k ∈ names then e k else none

/-- Environment.Set. -/
def envSet (k v : String) (e : Env) : Env := fun q => if q = k then some v else e q

/-- One set/unset operation read from the Kati environment script
(Environment.AppendFromKati); the effect of the script depends only on the Kati
env file contents, not on the current environment. -/
inductive KatiOp where
  | setVar (name value : String)
  | unsetVar (name : String)

/-- Apply the Kati environment script operations in order. -/
def applyKatiOps : List KatiOp → Env → Env
  | [], e => e
  | .setVar n v :: ops, e => applyKatiOps ops (envSet n v e)
  | .unsetVar n :: ops, e => applyKatiOps ops fun q => if q = n then none else e q

/-- The fixed environment allowlist of runNinja (ui/build/ninja.go). -/
def ninjaEnvAllowlist : List String :=
  ["ASAN_SYMBOLIZER_PATH", "HOME", "JAVA_HOME", "LANG", "LC_MESSAGES",
   "OUT_DIR", "PATH", "PWD", "PYTHONDONTWRITEBYTECODE", "TMPDIR", "USER",
   "ASAN_OPTIONS", "TARGET_BUILD_APPS", "TARGET_BUILD_VARIANT",
   "TARGET_PRODUCT", "EMMA_INSTRUMENT_FRAMEWORK",
   "RBE_compare", "RBE_num_local_reruns", "RBE_num_remote_reruns",
   "RBE_exec_root", "RBE_exec_strategy", "RBE_invocation_id", "RBE_log_dir",
   "RBE_num_retries_if_mismatched", "RBE_platform", "RBE_remote_accept_cache",
   "RBE_remote_update_cache", "RBE_server_address",
   "FLAG_compare", "FLAG_exec_root", "FLAG_exec_strategy",
   "FLAG_invocation_id", "FLAG_log_dir", "FLAG_platform",
   "FLAG_remote_accept_cache", "FLAG_remote_update_cache",
   "FLAG_server_address",
   "CCACHE_COMPILERCHECK", "CCACHE_SLOPPINESS", "CCACHE_BASEDIR",
   "CCACHE_CPP2", "CCACHE_DIR", "TOOLCHAIN_RUSAGE_OUTPUT",
   "BUILD_BROKEN_INCORRECT_PARTITION_IMAGES", "SOONG_NINJA", "SOONG_USE_N2",
   "RUST_BACKTRACE", "RUST_LOG", "SOONG_USE_PARTIAL_COMPILE",
   "SOONG_METRICS_AGGREGATION_DIR"]

/-- Configuration slice of runNinja that shapes the environment of the
executor. -/
structure NinjaEnvConfig where
  ninjaCommand : NinjaCommand
  distDir : String
  buildBrokenNinjaUsesEnvVars : List String
  metricsAggregationDir : String
  katiOps : List KatiOp

/-- The environment runNinja (ui/build/ninja.go) hands to the executor, as
a function of the starting soong_ui environment: the Kati env script is
applied, then (unless ALLOW_NINJA_ENV is true) the allowlist plus
config.BuildBrokenNinjaUsesEnvVars() filter, then the explicit Set calls
(DIST_DIR, SHELL, RUST_BACKTRACE for the n2 executor only, and
SOONG_METRICS_AGGREGATION_DIR).  allowNinjaEnv is the result of
cmd.Environment.IsEnvTrue("ALLOW_NINJA_ENV"). -/
def runNinjaExecutorEnv (c : NinjaEnvConfig) (allowNinjaEnv : Bool) (e : Env) : Env :=
  let e1 := applyKatiOps c.katiOps e
  let e2 := if allowNinjaEnv then e1
    else envAllow (ninjaEnvAllowlist ++ c.buildBrokenNinjaUsesEnvVars) e1
  let e3 := envSet "DIST_DIR" c.distDir e2
  let e4 := envSet "SHELL" "/bin/bash" e3
  let e5 := if c.ninjaCommand = .NINJA_N2 then envSet "RUST_BACKTRACE" "1" e4 else e4
  envSet "SOONG_METRICS_AGGREGATION_DIR" c.metricsAggregationDir e5

/-- Configuration slice used when selecting and invoking the external
executor (the bootstrap ninja closure in runSoong, ui/build/soong.go, and
runNinja, ui/build/ninja.go). -/
structure ExecutorConfig where
  ninjaCommand : NinjaCommand
  n2Bin : String
  sisoBin : String
  ninjaBin : String
  parallel : Nat
  outDir : String
  soongOutDir : String
deriving DecidableEq, Repr

/-- The .ninja_fifo path inside the out dir. -/
def ninjaFifo (c : ExecutorConfig) : String := c.outDir ++ "/.ninja_fifo"

/-- Executor selection and argument construction of the bootstrap ninja
closure in runSoong (ui/build/soong.go), before SOONG_UI_NINJA_ARGS and the
targets are appended. -/
def bootstrapExecutorInvocation (c : ExecutorConfig) : String × List String :=
  match c.ninjaCommand with
  | .NINJA_N2 =>
    (c.n2Bin, ["-v", "-j", toString c.parallel, "--frontend-file", ninjaFifo c,
      "-f", c.soongOutDir ++ "/bootstrap.ninja"])
  | .NINJA_SISO =>
    (c.sisoBin, ["ninja", "-v", "-j", toString c.parallel,
      "--log_dir", c.soongOutDir, "-f", c.soongOutDir ++ "/bootstrap.ninja"])
  | _ =>
    (c.ninjaBin, ["-d", "keepdepfile", "-d", "stats", "-o", "usesphonyoutputs=yes",
      "-o", "preremoveoutputs=yes", "-w", "dupbuild=err", "-w", "outputdir=err",
      "-w", "missingoutfile=err", "-j", toString c.parallel,
      "--frontend_file", ninjaFifo c, "-f", c.soongOutDir ++ "/bootstrap.ninja"])

/-- Executor selection and initial arguments of runNinja
(ui/build/ninja.go, the switch at the top of the function). -/
def runNinjaExecutorSelection (c : ExecutorConfig) : String × List String :=
  match c.ninjaCommand with
  | .NINJA_N2 => (c.n2Bin, ["-d", "trace", "--frontend-file", ninjaFifo c])
  | .NINJA_SISO => (c.sisoBin, ["ninja", "--log_dir", c.soongOutDir])
  | _ =>
    (c.ninjaBin, ["-d", "keepdepfile", "-d", "keeprsp", "-d", "stats",
      "--frontend_file", ninjaFifo c, "-o", "usesphonyoutputs=yes",
      "-w", "dupbuild=err", "-w", "missingdepfile=err"])

/-- Configuration slice of runSoong that determines its step sequence. -/
structure RunSoongConfig where
  jsonModuleGraph : Bool
  soongDocs : Bool
  soongBuildInvocationNeeded : Bool
  moduleGraphFile : String
  soongDocsHtml : String
  soongNinjaFile : String
deriving DecidableEq, Repr

/-- Observable steps of runSoong (ui/build/soong.go) in program order. -/
inductive SoongEvent where
  | migrateOutputSymlinks
  | epochCleanup
  | runBlueprint
  | writeEnvFile
  | checkEnvFile (tag : String)
  | checkGlobsFor (target : String)
  | invokeExecutor (targets : List String)
  | loadMetrics
  | distFiles
deriving DecidableEq, Repr

/-- Whether a runSoong step is the external executor invocation. -/
def isInvokeExecutor : SoongEvent → Bool
  | .invokeExecutor _ => true
  | _ => false

/-- The final output targets runSoong collects before checking globs and
invoking the executor, in the order they are appended. -/
def soongTargets (c : RunSoongConfig) : List String :=
  (if c.jsonModuleGraph then [c.moduleGraphFile] else []) ++
  (if c.soongDocs then [c.soongDocsHtml] else []) ++
  (if c.soongBuildInvocationNeeded then [c.soongNinjaFile] else [])

/-- The step trace of runSoong (ui/build/soong.go): output-symlink
migration, then bootstrapBlueprint (epoch cleanup followed by
RunBlueprint), then the environment file write and the per-tag staleness
checks, then checkGlobs for every collected target, then the single
executor invocation on all collected targets, metrics load and dist. -/
def runSoongTrace (c : RunSoongConfig) : List SoongEvent :=
  [.migrateOutputSymlinks, .epochCleanup, .runBlueprint, .writeEnvFile,
   .checkEnvFile "build"] ++
  (if c.jsonModuleGraph then [SoongEvent.checkEnvFile "modulegraph"] else []) ++
  (if c.soongDocs then [SoongEvent.checkEnvFile "soong_docs"] else []) ++
  (soongTargets c).map SoongEvent.checkGlobsFor ++
  [SoongEvent.invokeExecutor (soongTargets c), .loadMetrics, .distFiles]

/-- A concrete ApiLevelCtx over Int used to exercise the api-level
theorems: finalized levels compared numerically, NoneApiLevel as -1, and a
parser accepting only the string "3". -/
def apiLevelCtxExample : ApiLevelCtx Int where
  lessThan := fun a b => decide (a < b)
  minSupportedSdkVersion := 21
  firstLp64Version := 21
  futureApiLevel := 10000
  noneApiLevel := -1
  apiLevelFromUser := fun s => if s = "3" then .ok 3 else .error "parse error"
  arch := .arm

theorem depScan_no_error (fs : FileSystem) (t : Int) (deps : List String)
    (h : ∀ d ∈ deps, fs d ≠ .statError) :
    depScan fs t deps = (globDepStale fs t deps, false) := by
  induction deps with
  | nil => simp [depScan, globDepStale]
  | cons d rest ih =>
    have hd : fs d ≠ .statError := h d (List.mem_cons_self d rest)
    have hrest : ∀ x ∈ rest, fs x ≠ .statError := fun x hx => h x (List.mem_cons_of_mem d hx)
    cases hfs : fs d with
    | notExist => simp [depScan, globDepStale, hfs]
    | statError => exact absurd hfs hd
    | info m =>
      by_cases hm : m > t
      · simp [depScan, globDepStale, hfs, hm]
      · simp [depScan, globDepStale, hfs, hm, ih hrest]

theorem checkOneGlob_no_error (runGlob : GlobRunner) (fs : FileSystem) (t : Int)
    (g : GlobResult) (hdeps : ∀ d ∈ g.deps, fs d ≠ .statError)
    (hrun : runGlob g.pattern g.excludes ≠ none) :
    checkOneGlob runGlob fs t g = (globChangedB runGlob fs t g, false) := by
  cases hr : runGlob g.pattern g.excludes with
  | none => exact absurd hr hrun
  | some result =>
    by_cases hstale : globDepStale fs t g.deps
    · simp [checkOneGlob, depScan_no_error fs t g.deps hdeps, hstale, hr, globChangedB]
    · simp at hstale
      simp [checkOneGlob, depScan_no_error fs t g.deps hdeps, hstale, globChangedB]

theorem processGlobs_skip (runGlob : GlobRunner) (fs : FileSystem) (t : Int)
    (e : Bool) (gs : List GlobResult) :
    processGlobs runGlob fs t (true, e) gs = (true, e) := by
  induction gs with
  | nil => rfl
  | cons g rest ih => simpa [processGlobs] using ih

theorem processGlobs_no_error (runGlob : GlobRunner) (fs : FileSystem) (t : Int)
    (gs : List GlobResult)
    (hdeps : ∀ g ∈ gs, ∀ d ∈ g.deps, fs d ≠ .statError)
    (hruns : ∀ g ∈ gs, runGlob g.pattern g.excludes ≠ none) :
    processGlobs runGlob fs t (false, false) gs =
      (gs.any (globChangedB runGlob fs t), false) := by
  induction gs with
  | nil => simp [processGlobs]
  | cons g rest ih =>
    have hg := checkOneGlob_no_error runGlob fs t g
      (hdeps g (List.mem_cons_self g rest)) (hruns g (List.mem_cons_self g rest))
    have hrestdeps : ∀ x ∈ rest, ∀ d ∈ x.deps, fs d ≠ .statError :=
      fun x hx => hdeps x (List.mem_cons_of_mem g hx)
    have hrestruns : ∀ x ∈ rest, runGlob x.pattern x.excludes ≠ none :=
      fun x hx => hruns x (List.mem_cons_of_mem g hx)
    by_cases hc : globChangedB runGlob fs t g
    · simp [processGlobs, hg, hc, processGlobs_skip]
    · simp at hc
      simp [processGlobs, hg, hc, ih hrestdeps hrestruns]

/-- C1: For every final output target passed to checkGlobs in
ui/build/soong.go: if the "<target>.globs" cache file does not exist,
checkGlobs creates an empty "<target>.glob_results" file and returns no
error; if the cache exists and all reads succeed, checkGlobs rewrites
"<target>.glob_results" (triggering a soong_build rerun) if and only if
rerunning some cached glob pattern — one with a dependency that is missing
or newer than the timestamp recorded in "<target>.globs_time" — produces a
match list different from the cached match list. -/
theorem checkGlobs_rewrite_iff_changed
    (runGlob : GlobRunner) (fs : FileSystem) (now t : Int)
    (tf : Option Int) (gs : List GlobResult)
    (hdeps : ∀ g ∈ gs, ∀ d ∈ g.deps, fs d ≠ .statError)
    (hruns : ∀ g ∈ gs, runGlob g.pattern g.excludes ≠ none) :
    checkGlobs runGlob fs now none tf = .createdEmptyGlobResults ∧
    checkGlobs runGlob fs now (some gs) (some t) =
      .ok (gs.any (globChangedB runGlob fs t)) now ∧
    (gs.any (globChangedB runGlob fs t) = true ↔
      ∃ g ∈ gs, globDepStale fs t g.deps = true ∧
        runGlob g.pattern g.excludes ≠ some g.matchList) := by
  refine ⟨rfl, ?_, ?_⟩
  · simp [checkGlobs, processGlobs_no_error runGlob fs t gs hdeps hruns]
  · simp [List.any_eq_true, globChangedB, Bool.and_eq_true, decide_eq_true_eq]

theorem checkGlobs_rewrite_iff_changed_witness :
    checkGlobs (fun _ _ => some ["b"]) (fun _ => .info 10) 7
      (some [⟨"p", [], ["a"], ["d"]⟩]) (some 0) = .ok true 7 := by
  have h := checkGlobs_rewrite_iff_changed (fun _ _ => some ["b"])
    (fun _ => .info 10) 7 0 (some 0) [⟨"p", [], ["a"], ["d"]⟩]
    (by intro g hg d hd; simp) (by intro g hg; simp)
  rw [h.2.1]
  decide

/-- C2 counterexample: the claim that no component of this repository
itself decides whether glob results have changed is false — checkGlobs from
ui/build/soong.go, embedded above, computes exactly that decision: at a
fixed cache state, flipping only the result the external glob evaluator
returns flips whether ".glob_results" is rewritten. -/
theorem checkGlobs_decides_change_counterexample :
    checkGlobs (fun _ _ => some ["b"]) (fun _ => .info 10) 7
      (some [⟨"p", [], ["a"], ["d"]⟩]) (some 0) = .ok true 7 ∧
    checkGlobs (fun _ _ => some ["a"]) (fun _ => .info 10) 7
      (some [⟨"p", [], ["a"], ["d"]⟩]) (some 0) = .ok false 7 := by
  constructor <;> decide

/-- C2 (amended): file globbing itself is external (pathtools.Glob from
Blueprint), but the change-detection component is in this repository:
checkGlobs in ui/build/soong.go reruns stale cached globs and decides that
glob results have changed — rewriting "<target>.glob_results" — exactly
when some cached glob with a missing-or-newer dependency reruns to a
different match list. -/
theorem checkGlobs_is_change_detector
    (runGlob : GlobRunner) (fs : FileSystem) (now t : Int) (gs : List GlobResult)
    (hdeps : ∀ g ∈ gs, ∀ d ∈ g.deps, fs d ≠ .statError)
    (hruns : ∀ g ∈ gs, runGlob g.pattern g.excludes ≠ none) :
    checkGlobs runGlob fs now (some gs) (some t) = .ok true now ↔
      ∃ g ∈ gs, globDepStale fs t g.deps = true ∧
        runGlob g.pattern g.excludes ≠ some g.matchList := by
  rw [show checkGlobs runGlob fs now (some gs) (some t) =
      .ok (gs.any (globChangedB runGlob fs t)) now by
    simp [checkGlobs, processGlobs_no_error runGlob fs t gs hdeps hruns]]
  constructor
  · intro h
    have : gs.any (globChangedB runGlob fs t) = true := by
      cases hany : gs.any (globChangedB runGlob fs t) <;> simp [hany] at h ⊢
    simpa [List.any_eq_true, globChangedB, Bool.and_eq_true,
      decide_eq_true_eq] using this
  · intro h
    have : gs.any (globChangedB runGlob fs t) = true := by
      simpa [List.any_eq_true, globChangedB, Bool.and_eq_true,
        decide_eq_true_eq] using h
    rw [this]

theorem checkGlobs_is_change_detector_witness :
    checkGlobs (fun _ _ => some ["b"]) (fun _ => .info 10) 9
      (some [⟨"q", [], ["a"], ["d"]⟩]) (some 0) = .ok true 9 := by
  exact (checkGlobs_is_change_detector (fun _ _ => some ["b"])
    (fun _ => .info 10) 9 0 [⟨"q", [], ["a"], ["d"]⟩]
    (by intro g hg d hd; simp) (by intro g hg; simp)).mpr
    ⟨⟨"q", [], ["a"], ["d"]⟩, by simp, by decide, by decide⟩

/-- C3: For every configuration, the orchestration layer invokes exactly
one of the three external build executors, chosen solely by
config.ninjaCommand: the N2 binary (config.N2Bin()) when it is NINJA_N2,
the Siso binary (config.SisoBin(), with a leading "ninja" subcommand
argument) when it is NINJA_SISO, and the Ninja binary (config.NinjaBin())
in every other case — in both the bootstrap ninja closure of runSoong and
in runNinja. -/
theorem executor_chosen_by_ninjaCommand (c : ExecutorConfig) :
    (c.ninjaCommand = .NINJA_N2 →
      (bootstrapExecutorInvocation c).1 = c.n2Bin ∧
      (runNinjaExecutorSelection c).1 = c.n2Bin) ∧
    (c.ninjaCommand = .NINJA_SISO →
      (bootstrapExecutorInvocation c).1 = c.sisoBin ∧
      (bootstrapExecutorInvocation c).2.head? = some "ninja" ∧
      (runNinjaExecutorSelection c).1 = c.sisoBin ∧
      (runNinjaExecutorSelection c).2.head? = some "ninja") ∧
    (c.ninjaCommand ≠ .NINJA_N2 → c.ninjaCommand ≠ .NINJA_SISO →
      (bootstrapExecutorInvocation c).1 = c.ninjaBin ∧
      (runNinjaExecutorSelection c).1 = c.ninjaBin) := by
  cases h : c.ninjaCommand <;>
    simp [bootstrapExecutorInvocation, runNinjaExecutorSelection, h]

theorem executor_chosen_by_ninjaCommand_witness :
    (bootstrapExecutorInvocation
      ⟨.NINJA_SISO, "n2", "siso", "ninja_bin", 4, "out", "out/soong"⟩).1 = "siso" ∧
    (bootstrapExecutorInvocation
      ⟨.NINJA_SISO, "n2", "siso", "ninja_bin", 4, "out", "out/soong"⟩).2.head? =
      some "ninja" := by
  have h := (executor_chosen_by_ninjaCommand
    ⟨.NINJA_SISO, "n2", "siso", "ninja_bin", 4, "out", "out/soong"⟩).2.1 rfl
  exact ⟨h.1, h.2.1⟩

/-- C4: In every execution of runSoong the external executor is never
invoked before bootstrapping is complete: the trace is output-symlink
migration, then bootstrapBlueprint (epoch cleanup followed by
RunBlueprint), then the environment-file write and staleness checks, then
checkGlobs for every requested target, and only then the single executor
invocation on all collected targets. -/
theorem runSoong_step_order (c : RunSoongConfig) :
    ∃ envChecks : List SoongEvent,
      (∀ e ∈ envChecks, ∃ tag, e = SoongEvent.checkEnvFile tag) ∧
      runSoongTrace c =
        [SoongEvent.migrateOutputSymlinks, .epochCleanup, .runBlueprint,
          .writeEnvFile] ++
        envChecks ++ (soongTargets c).map SoongEvent.checkGlobsFor ++
        [SoongEvent.invokeExecutor (soongTargets c), .loadMetrics, .distFiles] ∧
      (runSoongTrace c).countP isInvokeExecutor = 1 := by
  refine ⟨[SoongEvent.checkEnvFile "build"] ++
    (if c.jsonModuleGraph then [SoongEvent.checkEnvFile "modulegraph"] else []) ++
    (if c.soongDocs then [SoongEvent.checkEnvFile "soong_docs"] else []),
    ?_, ?_, ?_⟩
  · intro e he
    rcases List.mem_append.1 he with he | he
    · rcases List.mem_append.1 he with he | he
      · simp at he
        exact ⟨"build", he⟩
      · simp at he
        exact ⟨"modulegraph", he.2⟩
    · simp at he
      exact ⟨"soong_docs", he.2⟩
  · simp [runSoongTrace]
  · have hmap : ((soongTargets c).map SoongEvent.checkGlobsFor).countP
        isInvokeExecutor = 0 := by
      rw [List.countP_map]
      simp [Function.comp, isInvokeExecutor]
    rcases hj : c.jsonModuleGraph <;> rcases hd : c.soongDocs <;>
      simp [runSoongTrace, hj, hd, List.countP_append, hmap, isInvokeExecutor,
        List.countP_cons, List.countP_nil]

theorem runSoong_step_order_witness :
    (runSoongTrace ⟨true, false, true, "mg", "docs", "bn"⟩).countP
      isInvokeExecutor = 1 :=
  (runSoong_step_order ⟨true, false, true, "mg", "docs", "bn"⟩).choose_spec.2.2

/-- C7: bootstrapEpochCleanup is idempotent per epoch: when the marker file
.soong.bootstrap.epoch.<bootstrapEpoch> exists it changes no state; when
the marker is absent it deletes the generated soong ninja file, its shard
files and the .globs/.globs_time/.glob_results companions and writes the
marker; and running the cleanup twice equals running it once. -/
theorem bootstrapEpochCleanup_idempotent (c : EpochConfig) (fs : FsExists) :
    (fs (epochPath c) = true → bootstrapEpochCleanup c fs = fs) ∧
    (fs (epochPath c) = false → ∀ p,
      bootstrapEpochCleanup c fs p =
        (decide (p = epochPath c) ||
          (!decide (p ∈ epochCleanupDeletes c) && fs p))) ∧
    bootstrapEpochCleanup c (bootstrapEpochCleanup c fs) =
      bootstrapEpochCleanup c fs := by
  have key : ∀ g : FsExists, g (epochPath c) = true →
      bootstrapEpochCleanup c g = g := by
    intro g hg
    simp [bootstrapEpochCleanup, hg]
  refine ⟨key fs, ?_, ?_⟩
  · intro h p
    by_cases hp : p = epochPath c <;> by_cases hd : p ∈ epochCleanupDeletes c <;>
      simp [bootstrapEpochCleanup, h, hp, hd]
  · by_cases h : fs (epochPath c) = true
    · rw [key fs h]
      exact key fs h
    · have h' : bootstrapEpochCleanup c fs (epochPath c) = true := by
        simp [bootstrapEpochCleanup, Bool.not_eq_true _ ▸ h]
      exact key _ h'

theorem bootstrapEpochCleanup_idempotent_witness :
    bootstrapEpochCleanup ⟨"out/soong", "out/soong/build.ninja", []⟩
      (fun _ => false) "out/soong/build.ninja" = false := by
  have h := (bootstrapEpochCleanup_idempotent
    ⟨"out/soong", "out/soong/build.ninja", []⟩ (fun _ => false)).2.1 rfl
    "out/soong/build.ninja"
  rw [h]
  decide

/-- C5: For every apex_key module, if both the Public_key and Private_key
properties are set and the base names (extension stripped) of the two
resolved key files differ, GenerateAndroidBuildActions reports a module
error and returns without publishing the ApexKeyInfo provider; in every
other case it publishes ApexKeyInfo containing exactly the resolved public
and private key paths. -/
theorem apexKey_generate_spec (rc : KeyResolutionCtx) (props : ApexKeyProperties) :
    (apexKeyGenerateAndroidBuildActions rc props = none ↔
      (props.public_key ≠ none ∧ props.private_key ≠ none ∧
        apexKeyName (resolveKeyFile rc props.public_key) ≠
          apexKeyName (resolveKeyFile rc props.private_key))) ∧
    (¬ (props.public_key ≠ none ∧ props.private_key ≠ none ∧
        apexKeyName (resolveKeyFile rc props.public_key) ≠
          apexKeyName (resolveKeyFile rc props.private_key)) →
      apexKeyGenerateAndroidBuildActions rc props =
        some ⟨resolveKeyFile rc props.public_key,
          resolveKeyFile rc props.private_key⟩) := by
  by_cases h : props.public_key ≠ none ∧ props.private_key ≠ none ∧
      apexKeyName (resolveKeyFile rc props.public_key) ≠
        apexKeyName (resolveKeyFile rc props.private_key)
  · constructor
    · simp [apexKeyGenerateAndroidBuildActions, h]
    · intro hn
      exact absurd h hn
  · constructor
    · simp [apexKeyGenerateAndroidBuildActions, h]
    · intro _
      simp [apexKeyGenerateAndroidBuildActions, h]

theorem apexKey_generate_spec_witness :
    apexKeyGenerateAndroidBuildActions
      ⟨fun _ => "", id, fun s => "certs/" ++ s, fun _ => true⟩
      ⟨some "a.avbpubkey", some "b.pem", none⟩ = none ∧
    apexKeyGenerateAndroidBuildActions
      ⟨fun _ => "", id, fun s => "certs/" ++ s, fun _ => true⟩
      ⟨some "k.avbpubkey", some "k.pem", none⟩ =
      some ⟨"certs/k.avbpubkey", "certs/k.pem"⟩ := by
  constructor
  · exact (apexKey_generate_spec
      ⟨fun _ => "", id, fun s => "certs/" ++ s, fun _ => true⟩
      ⟨some "a.avbpubkey", some "b.pem", none⟩).1.mpr
      ⟨by decide, by decide, by decide⟩
  · rw [(apexKey_generate_spec
      ⟨fun _ => "", id, fun s => "certs/" ++ s, fun _ => true⟩
      ⟨some "k.avbpubkey", some "k.pem", none⟩).2 (by decide)]
    decide

/-- C6: The platform_compat_config singleton pass aggregates the
compat-config metadata of exactly those modules that are enabled, preferred
and marked IncludeInMergedXml; if that collection is empty it emits no
build rule and dists nothing, and otherwise it emits exactly one
process-compat-config merge rule producing
compat_config/merged_compat_config.xml and dists that file for the
"droidcore" goal. -/
theorem compat_singleton_spec (mods : List CompatModuleView) :
    collectCompatConfigMetadata mods = mods.filterMap compatIncludedMetadata ∧
    (collectCompatConfigMetadata mods = [] →
      platformCompatConfigSingletonGenerateBuildActions mods = ⟨none, []⟩) ∧
    (collectCompatConfigMetadata mods ≠ [] →
      platformCompatConfigSingletonGenerateBuildActions mods =
        ⟨some ⟨"process-compat-config", collectCompatConfigMetadata mods,
          platformCompatConfigPath⟩,
         [("droidcore", platformCompatConfigPath)]⟩) := by
  refine ⟨?_, ?_, ?_⟩
  · have hfun : (fun (m : CompatModuleView) =>
        if !m.enabled then none
        else match m.compatConfig with
          | none => none
          | some (md, includeInMergedXml) =>
            if !m.preferred then none
            else if !includeInMergedXml then none
            else some md) = compatIncludedMetadata := by
      funext m
      rcases m with ⟨e, cc, p⟩
      rcases cc with _ | ⟨md, inc⟩ <;> rcases e <;> rcases p <;>
        (try rcases inc) <;> rfl
    unfold collectCompatConfigMetadata
    rw [hfun]
  · intro h
    simp [platformCompatConfigSingletonGenerateBuildActions, h]
  · intro h
    simp [platformCompatConfigSingletonGenerateBuildActions, h]

theorem compat_singleton_spec_witness :
    platformCompatConfigSingletonGenerateBuildActions
      [⟨true, some ("a.xml", true), true⟩, ⟨false, some ("b.xml", true), true⟩] =
      ⟨some ⟨"process-compat-config", ["a.xml"], platformCompatConfigPath⟩,
       [("droidcore", platformCompatConfigPath)]⟩ := by
  rw [(compat_singleton_spec
    [⟨true, some ("a.xml", true), true⟩, ⟨false, some ("b.xml", true), true⟩]).2.2
    (by decide)]
  decide

/-- C8: For every architecture for which MinApiForArch is defined,
NativeApiLevelFromUser never returns an API level below MinApiForArch for
that architecture: the input string "minimum" returns exactly
MinApiForArch, any other successfully parsed level is clamped up to
MinApiForArch when it is lower and returned unchanged otherwise, and on a
parse error it returns NoneApiLevel together with the error; MinApiForArch
itself panics on any architecture other than Arm, X86, Arm64, X86_64 and
Riscv64. -/
theorem nativeApiLevelFromUser_clamped {A : Type} (c : ApiLevelCtx A)
    (hirr : ∀ a, c.lessThan a a = false) :
    (∀ mn, MinApiForArch c c.arch = some mn →
      NativeApiLevelFromUser c "minimum" = some (mn, none) ∧
      c.lessThan mn mn = false) ∧
    (∀ raw v mn, raw ≠ "minimum" → c.apiLevelFromUser raw = .ok v →
      MinApiForArch c c.arch = some mn →
      NativeApiLevelFromUser c raw =
        some (if c.lessThan v mn then mn else v, none) ∧
      c.lessThan (if c.lessThan v mn then mn else v) mn = false) ∧
    (∀ raw e, raw ≠ "minimum" → c.apiLevelFromUser raw = .error e →
      NativeApiLevelFromUser c raw = some (c.noneApiLevel, some e)) ∧
    (∀ arch, MinApiForArch c arch = none ↔ arch = ArchType.other) := by
  refine ⟨?_, ?_, ?_, ?_⟩
  · intro mn hmn
    exact ⟨by simp [NativeApiLevelFromUser, hmn], hirr mn⟩
  · intro raw v mn hraw hok hmn
    constructor
    · simp [NativeApiLevelFromUser, hraw, hok, nativeClampedApiLevel, hmn]
    · by_cases hlt : c.lessThan v mn = true
      · simp [hlt, hirr mn]
      · simp at hlt
        simp [hlt]
  · intro raw e hraw herr
    simp [NativeApiLevelFromUser, hraw, herr]
  · intro arch
    cases arch <;> simp [MinApiForArch]

theorem nativeApiLevelFromUser_clamped_witness :
    NativeApiLevelFromUser apiLevelCtxExample "minimum" = some (21, none) ∧
    NativeApiLevelFromUser apiLevelCtxExample "3" = some (21, none) ∧
    NativeApiLevelFromUser apiLevelCtxExample "zzz" =
      some (-1, some "parse error") := by
  have h := nativeApiLevelFromUser_clamped apiLevelCtxExample
    (by intro a; simp [apiLevelCtxExample])
  refine ⟨(h.1 21 rfl).1, ?_,
    h.2.2.1 "zzz" "parse error" (by decide) rfl⟩
  have h2 := (h.2.1 "3" 3 21 (by decide) rfl rfl).1
  rw [h2]
  decide

theorem sortedUniquePaths_eq_of_perm {l₁ l₂ : List String} (h : l₁.Perm l₂) :
    sortedUniquePaths l₁ = sortedUniquePaths l₂ :=
  List.eq_of_perm_of_sorted
    (((List.perm_insertionSort _ _).trans h.dedup).trans
      (List.perm_insertionSort _ _).symm)
    (List.sorted_insertionSort _ _) (List.sorted_insertionSort _ _)

theorem perm_any_eq {α : Type} {l₁ l₂ : List α} (h : l₁.Perm l₂) (p : α → Bool) :
    l₁.any p = l₂.any p := by
  apply Bool.eq_iff_iff.mpr
  simp only [List.any_eq_true]
  constructor
  · rintro ⟨a, ha, hp⟩
    exact ⟨a, h.mem_iff.mp ha, hp⟩
  · rintro ⟨a, ha, hp⟩
    exact ⟨a, h.mem_iff.mpr ha, hp⟩

/-- C9: The outputs of the all_apex_certs singleton module are deterministic in
the dependency visit order: the .pem certificate list and the .avbpubkey
list are sorted and deduplicated before being set as output files, so two
runs that visit the same set of apex dependencies in different orders
produce identical outputs, and the i-th .der output is always generated
from the i-th entry of the sorted .pem list. -/
theorem allApexCerts_deterministic (c : AllApexCertsCtx)
    (deps1 deps2 : List ApexDepView) (hperm : deps1.Perm deps2) :
    allApexCertsGenerateAndroidBuildActions c deps1 =
      allApexCertsGenerateAndroidBuildActions c deps2 ∧
    (∀ i : Nat,
      (allApexCertsGenerateAndroidBuildActions c deps1).pemToDerRules[i]? =
        ((allApexCertsGenerateAndroidBuildActions c deps1).certificatesPem[i]?.map
          fun pem => (pem, derPath i))) := by
  constructor
  · have hpem := sortedUniquePaths_eq_of_perm
      (hperm.filterMap fun m => if apexDepKept c m then some m.pem else none)
    have hpub := sortedUniquePaths_eq_of_perm
      (hperm.filterMap fun m => if apexDepKept c m then some m.publicKeyFile else none)
    have herr := perm_any_eq hperm fun m =>
      m.isApexBundle && !c.existentPathValid m.pem && !c.allowMissingDependencies
    simp only [allApexCertsGenerateAndroidBuildActions, hpem, hpub, herr]
  · intro i
    simp only [allApexCertsGenerateAndroidBuildActions, List.getElem?_map,
      List.getElem?_enum, Option.map_map]
    rfl

theorem allApexCerts_deterministic_witness :
    allApexCertsGenerateAndroidBuildActions ⟨fun _ => true, false⟩
      [⟨true, "b.pem", "b.avbpubkey"⟩, ⟨true, "a.pem", "a.avbpubkey"⟩] =
    allApexCertsGenerateAndroidBuildActions ⟨fun _ => true, false⟩
      [⟨true, "a.pem", "a.avbpubkey"⟩, ⟨true, "b.pem", "b.avbpubkey"⟩] :=
  (allApexCerts_deterministic ⟨fun _ => true, false⟩
    [⟨true, "b.pem", "b.avbpubkey"⟩, ⟨true, "a.pem", "a.avbpubkey"⟩]
    [⟨true, "a.pem", "a.avbpubkey"⟩, ⟨true, "b.pem", "b.avbpubkey"⟩]
    (List.Perm.swap _ _ _)).1

theorem applyKatiOps_pointwise (ops : List KatiOp) (e1 e2 : Env) (k : String)
    (h : e1 k = e2 k) : applyKatiOps ops e1 k = applyKatiOps ops e2 k := by
  induction ops generalizing e1 e2 with
  | nil => exact h
  | cons op ops ih =>
    cases op with
    | setVar n v => exact ih _ _ (by simp [envSet, h])
    | unsetVar n => exact ih _ _ (by simp [h])

/-- C10: Unless the ALLOW_NINJA_ENV environment variable is true, runNinja
restricts the environment passed to the executor to a fixed allowlist plus
config.BuildBrokenNinjaUsesEnvVars() plus the variables it sets explicitly
(DIST_DIR, SHELL, SOONG_METRICS_AGGREGATION_DIR, and RUST_BACKTRACE only
for the N2 executor), so the value of any environment variable outside that
set has no effect on the environment of the executor: two starting
environments agreeing on the allowed names yield identical executor environments. -/
theorem runNinja_env_restricted (c : NinjaEnvConfig) (e1 e2 : Env)
    (hagree : ∀ k ∈ ninjaEnvAllowlist ++ c.buildBrokenNinjaUsesEnvVars, e1 k = e2 k) :
    runNinjaExecutorEnv c false e1 = runNinjaExecutorEnv c false e2 := by
  have hallow : envAllow (ninjaEnvAllowlist ++ c.buildBrokenNinjaUsesEnvVars)
      (applyKatiOps c.katiOps e1) =
      envAllow (ninjaEnvAllowlist ++ c.buildBrokenNinjaUsesEnvVars)
      (applyKatiOps c.katiOps e2) := by
    funext q
    by_cases hq : q ∈ ninjaEnvAllowlist ++ c.buildBrokenNinjaUsesEnvVars
    · simp [envAllow, hq, applyKatiOps_pointwise c.katiOps e1 e2 q (hagree q hq)]
    · simp [envAllow, hq]
  simp [runNinjaExecutorEnv, hallow]

theorem runNinja_env_restricted_witness :
    runNinjaExecutorEnv ⟨.NINJA_NINJA, "dist", [], "mdir", []⟩ false
      (fun _ => none) =
    runNinjaExecutorEnv ⟨.NINJA_NINJA, "dist", [], "mdir", []⟩ false
      (fun k => if k = "SECRET_VAR" then some "x" else none) := by
  apply runNinja_env_restricted
  intro k hk
  have hne : k ≠ "SECRET_VAR" := by
    rintro rfl
    revert hk
    decide
  simp [hne]

end Soong
